import Mathlib

/-!
# SBS-offline: the shower cluster of `old/SBSBBShowerCluster.{h,cxx}` and the
inline code of `SBSGenericDetector.h`

Shallow embedding of the cluster class, of the output structure and of the
detector's inline setters, queries and vector helpers, with the operations
their contract talks about.

* `Float_t` quantities are rationals in the structures `SBSShowerBlock` and
  `SBSBBShowerCluster`: this is the class in exact arithmetic, which is what the
  contract speaks of where it says "in exact arithmetic".  `/` is the total
  division of `ℚ` (`a / 0 = 0`).  The structures `SBSShowerBlock32` and
  `SBSBBShowerCluster32` carry the same fields as IEEE 754 binary32 data (`F32`),
  every operation rounded to nearest, ties to even; statements about the values
  the compiled class holds are made there.
* `Int_t` quantities are `Int`.  The only integer arithmetic of the class is
  `fMult++` and `fMult-1`, executed under the guard `fMult < fNMaxBlocks`, so
  an `Int_t` never wraps there.
* A `SBSShowerBlock*` is an address (`Nat`) into a block store (`Heap`); two
  equal addresses are the same block, so aliasing is visible.
* The member array `fBlocks` is the list of its `fNMaxBlocks` slots.  A slot is
  `none` until a pointer has been stored into it.  An access outside the
  allocated array is made explicit (`Fetched.outside`); a store outside the
  allocated array leaves the slots of the array as they are.
-/

/-- Modelled from the spec: `SBSShowerBlock.h` is not among the sources.  A block
(an Element of the spec) has a position, an energy and a status flag ("consumed"
when `1`); `GetX`, `GetY`, `GetE` read the fields and `SetStat` stores the flag. -/
structure SBSShowerBlock where
  fX : ℚ
  fY : ℚ
  fE : ℚ
  fStat : Int
deriving DecidableEq

namespace SBSShowerBlock

/-- Modelled from the spec: getter of the block position x (`block->GetX()`). -/
def GetX (b : SBSShowerBlock) : ℚ := b.fX

/-- Modelled from the spec: getter of the block position y (`block->GetY()`). -/
def GetY (b : SBSShowerBlock) : ℚ := b.fY

/-- Modelled from the spec: getter of the block energy (`block->GetE()`). -/
def GetE (b : SBSShowerBlock) : ℚ := b.fE

/-- Modelled from the spec: getter of the status flag. -/
def GetStat (b : SBSShowerBlock) : Int := b.fStat

/-- Modelled from the spec: `block->SetStat(s)` stores the status flag and
touches nothing else. -/
def SetStat (b : SBSShowerBlock) (s : Int) : SBSShowerBlock := { b with fStat := s }

end SBSShowerBlock

/-- The block store: what each `SBSShowerBlock*` points to. -/
abbrev Heap := Nat → SBSShowerBlock

/-- The effect of `block->SetStat(s)` on the store. -/
def Heap.SetStat (h : Heap) (block : Nat) (s : Int) : Heap :=
  fun a => if a = block then (h block).SetStat s else h a

/-- The outcome of `GetBlock`: the null pointer, the content of a slot of the
member array, or a read of `fBlocks[i]` at an index outside the allocated array. -/
inductive Fetched where
  | null
  | slot (s : Option Nat)
  | outside (i : Int)
deriving DecidableEq

/-- The class `SBSBBShowerCluster` (fields of `SBSBBShowerCluster.h`, lines 52-61). -/
structure SBSBBShowerCluster where
  fX : ℚ
  fY : ℚ
  fE : ℚ
  fMult : Int
  fNMaxBlocks : Int
  fBlocks : List (Option Nat)
deriving DecidableEq

namespace SBSBBShowerCluster

/-- The array obtained from `new SBSShowerBlock*[n]`: `n` slots, none written yet. -/
def newArray (n : Int) : List (Option Nat) := List.replicate n.toNat none

/-- The assignment `fBlocks[i] = block`. -/
def storeAt (a : List (Option Nat)) (i : Int) (block : Nat) : List (Option Nat) :=
  if 0 ≤ i ∧ i < a.length then a.set i.toNat (some block) else a

/-- The read `fBlocks[i]`. -/
def loadAt (a : List (Option Nat)) (i : Int) : Fetched :=
  if 0 ≤ i ∧ i < a.length then Fetched.slot (a.getD i.toNat none) else Fetched.outside i

/-- The constructor `SBSBBShowerCluster(Int_t nmaxblk, SBSShowerBlock* block)`
(`SBSBBShowerCluster.cxx`, lines 16-25).  It reads the block and writes nothing to it. -/
def createSeeded (nmaxblk : Int) (h : Heap) (block : Nat) : SBSBBShowerCluster :=
  { fNMaxBlocks := nmaxblk
    fBlocks := storeAt (newArray nmaxblk) 0 block
    fX := (h block).GetX
    fY := (h block).GetY
    fE := (h block).GetE
    fMult := 1 }

/-- The constructor `SBSBBShowerCluster(Int_t nmaxblk)` (`SBSBBShowerCluster.cxx`, lines 29-37). -/
def create (nmaxblk : Int) : SBSBBShowerCluster :=
  { fNMaxBlocks := nmaxblk
    fBlocks := newArray nmaxblk
    fX := 0
    fY := 0
    fE := 0
    fMult := 0 }

/-- The getter `GetX`. -/
def GetX (c : SBSBBShowerCluster) : ℚ := c.fX

/-- The getter `GetY`. -/
def GetY (c : SBSBBShowerCluster) : ℚ := c.fY

/-- The getter `GetE`. -/
def GetE (c : SBSBBShowerCluster) : ℚ := c.fE

/-- The getter `GetMult`. -/
def GetMult (c : SBSBBShowerCluster) : Int := c.fMult

/-- The getter `GetNMaxBlocks`. -/
def GetNMaxBlocks (c : SBSBBShowerCluster) : Int := c.fNMaxBlocks

/-- The member access `GetBlock(int i)` (`SBSBBShowerCluster.h`, lines 35-41). -/
def GetBlock (c : SBSBBShowerCluster) (i : Int) : Fetched :=
  if i < c.fMult then loadAt c.fBlocks i else Fetched.null

/-- The method `AddBlock(SBSShowerBlock* block)` (`SBSBBShowerCluster.cxx`, lines 56-73):
the cluster and the block store after the call. -/
def AddBlock (c : SBSBBShowerCluster) (h : Heap) (block : Nat) : SBSBBShowerCluster × Heap :=
  if c.fMult < c.fNMaxBlocks then
    let blocks := storeAt c.fBlocks c.fMult block
    let h1 := h.SetStat block 1
    let mult := c.fMult + 1
    let x := (c.fX * c.fE * (((mult - 1 : Int)) : ℚ) + (h1 block).GetX * (h1 block).GetE) /
      (c.fE + (h1 block).GetE)
    let y := (c.fY * c.fE * (((mult - 1 : Int)) : ℚ) + (h1 block).GetY * (h1 block).GetE) /
      (c.fE + (h1 block).GetE)
    let e := c.fE + (h1 block).GetE
    ({ fX := x, fY := y, fE := e, fMult := mult, fNMaxBlocks := c.fNMaxBlocks, fBlocks := blocks }, h1)
  else (c, h)

/-- The method `ClearEvent()` (`SBSBBShowerCluster.cxx`, lines 76-80). -/
def ClearEvent (c : SBSBBShowerCluster) : SBSBBShowerCluster :=
  { c with fMult := 0, fX := 0, fY := 0, fE := 0, fBlocks := newArray c.fNMaxBlocks }

/-- A sequence of `AddBlock` calls on one cluster, in order. -/
def addBlocks (s : SBSBBShowerCluster × Heap) (blocks : List Nat) : SBSBBShowerCluster × Heap :=
  blocks.foldl (fun t b => AddBlock t.1 t.2 b) s

/-- The member list: the slots at indices `0..fMult-1`. -/
def members (c : SBSBBShowerCluster) : List (Option Nat) := c.fBlocks.take c.fMult.toNat

/-- Every block of the member list carries the status flag `1`. -/
def MembersFlagged (c : SBSBBShowerCluster) (h : Heap) : Prop :=
  ∀ b, some b ∈ members c → (h b).GetStat = 1

/-- The public operations that change a cluster: `AddBlock(block)` and `ClearEvent()`. -/
inductive Op where
  | addBlock (block : Nat)
  | clearEvent
deriving DecidableEq

/-- One public operation on a cluster and the block store. -/
def step (s : SBSBBShowerCluster × Heap) : Op → SBSBBShowerCluster × Heap
  | Op.addBlock block => AddBlock s.1 s.2 block
  | Op.clearEvent => (ClearEvent s.1, s.2)

/-- A sequence of public operations, in order. -/
def run (s : SBSBBShowerCluster × Heap) (ops : List Op) : SBSBBShowerCluster × Heap :=
  ops.foldl step s

end SBSBBShowerCluster

/-- The energy-weighted mean `(sum_i x_i*e_i)/(sum_i e_i)` of the x positions of the
blocks `blocks`, as the contract words it. -/
def weightedMeanX (h : Heap) (blocks : List Nat) : ℚ :=
  (blocks.map (fun b => (h b).GetX * (h b).GetE)).sum / (blocks.map (fun b => (h b).GetE)).sum

/-- The energy-weighted mean `(sum_i y_i*e_i)/(sum_i e_i)` of the y positions of the
blocks `blocks`, as the contract words it. -/
def weightedMeanY (h : Heap) (blocks : List Nat) : ℚ :=
  (blocks.map (fun b => (h b).GetY * (h b).GetE)).sum / (blocks.map (fun b => (h b).GetE)).sum

/-- The sum `sum_j (N!/(i+j)!) * t(b_j)` over the blocks `b_0, b_1, ...` of a list, the
first of which has index `i`: the closed form of the coded centroid recurrence, with
`t(b)` the product of a position and the energy of block `b`. -/
def factorialSum (N : Nat) (t : Nat → ℚ) : Nat → List Nat → ℚ
  | _, [] => 0
  | i, b :: bs => ((N.factorial : ℚ) / (i.factorial : ℚ)) * t b + factorialSum N t (i + 1) bs

/-- The closed form `sum_{i=1..n} ((n-1)!/(i-1)!) * x_i * e_i` for the blocks `blocks`. -/
def closedFormX (h : Heap) (blocks : List Nat) : ℚ :=
  factorialSum (blocks.length - 1) (fun b => (h b).GetX * (h b).GetE) 0 blocks

/-- The closed form `sum_{i=1..n} ((n-1)!/(i-1)!) * y_i * e_i` for the blocks `blocks`. -/
def closedFormY (h : Heap) (blocks : List Nat) : ℚ :=
  factorialSum (blocks.length - 1) (fun b => (h b).GetY * (h b).GetE) 0 blocks

/-! ## The detector of `SBSGenericDetector.h` -/

/-- The output structure `SBSGenericOutputData` (`SBSGenericDetector.h`, lines 50-92): sixteen
parallel sequences, `Int_t` entries as integers and `Float_t` entries as rationals. -/
structure SBSGenericOutputData where
  row : List Int
  col : List Int
  ped : List Int
  layer : List Int
  a : List ℚ
  a_p : List ℚ
  a_c : List ℚ
  a_amp : List ℚ
  a_amp_p : List ℚ
  a_time : List ℚ
  t : List ℚ
  t_te : List ℚ
  t_ToT : List ℚ
  nsamps : List Int
  sidx : List Int
  samps : List ℚ
deriving DecidableEq

namespace SBSGenericOutputData

/-- The method `clear()` (`SBSGenericDetector.h`, lines 74-91): `clear()` on each member. -/
def clear (d : SBSGenericOutputData) : SBSGenericOutputData :=
  { d with
    row := []
    col := []
    ped := []
    layer := []
    a := []
    a_p := []
    a_c := []
    a_amp := []
    a_amp_p := []
    a_time := []
    t := []
    t_te := []
    t_ToT := []
    nsamps := []
    sidx := []
    samps := [] }

/-- The buffer invariant in the words of the contract: all per-hit sequences have the same
length, `len(sidx) == len(nsamps)`, `len(samps) == sum(nsamps)`, and `sidx[k]` is the sum
of `nsamps[0..k-1]`. -/
def BufferInvariant (d : SBSGenericOutputData) : Prop :=
  d.col.length = d.row.length ∧ d.ped.length = d.row.length ∧ d.layer.length = d.row.length ∧
  d.a.length = d.row.length ∧ d.a_p.length = d.row.length ∧ d.a_c.length = d.row.length ∧
  d.a_amp.length = d.row.length ∧ d.a_amp_p.length = d.row.length ∧
  d.a_time.length = d.row.length ∧ d.t.length = d.row.length ∧ d.t_te.length = d.row.length ∧
  d.t_ToT.length = d.row.length ∧ d.nsamps.length = d.row.length ∧
  d.sidx.length = d.nsamps.length ∧
  (d.samps.length : Int) = d.nsamps.sum ∧
  ∀ k, k < d.sidx.length → d.sidx[k]? = some (d.nsamps.take k).sum

end SBSGenericOutputData

namespace SBSModeADC

/-- The enumeration `SBSModeADC::Mode` (`SBSGenericDetector.h`, lines 29-36). -/
inductive Mode where
  | kNone
  | kADC
  | kADCSimple
  | kWaveform
deriving DecidableEq

end SBSModeADC

namespace SBSModeTDC

/-- The enumeration `SBSModeTDC::Mode` (`SBSGenericDetector.h`, lines 38-45). -/
inductive Mode where
  | kNone
  | kIgnore
  | kTDC
  | kTDCSimple
deriving DecidableEq

end SBSModeTDC

/-- The data members of the class `SBSGenericDetector` (`SBSGenericDetector.h`, lines
139-181); element pointers are addresses. -/
structure SBSGenericDetector where
  fNrows : Int
  fNcols : List Int
  fNcolsMax : Int
  fNlayers : Int
  fModeADC : SBSModeADC.Mode
  fModeTDC : SBSModeTDC.Mode
  fDisableRefADC : Bool
  fDisableRefTDC : Bool
  fStoreEmptyElements : Bool
  fChanMapStart : Nat
  fChanMap : List (List Int)
  fGood : SBSGenericOutputData
  fRaw : SBSGenericOutputData
  fElements : List Nat
  fRefElements : List Nat
  fElementGrid : List (List (List Nat))
  fCoarseProcessed : Bool
  fFineProcessed : Bool
  fConst : ℚ
  fSlope : ℚ
  fAccCharge : ℚ
  fNhits : Int
  fNRefhits : Int
  fNGoodhits : Int
  fStoreRawHits : Bool
deriving DecidableEq

namespace SBSGenericDetector

/-- The setter `SetModeTDC(mode)` (`SBSGenericDetector.h`, line 107). -/
def SetModeTDC (d : SBSGenericDetector) (mode : SBSModeTDC.Mode) : SBSGenericDetector :=
  { d with fModeTDC := mode }

/-- The setter `SetDisableRefADC(b)` (line 108). -/
def SetDisableRefADC (d : SBSGenericDetector) (b : Bool) : SBSGenericDetector :=
  { d with fDisableRefADC := b }

/-- The setter `SetDisableRefTDC(b)` (line 109). -/
def SetDisableRefTDC (d : SBSGenericDetector) (b : Bool) : SBSGenericDetector :=
  { d with fDisableRefTDC := b }

/-- The setter `SetStoreRawHits(var)` (line 110). -/
def SetStoreRawHits (d : SBSGenericDetector) (var : Bool) : SBSGenericDetector :=
  { d with fStoreRawHits := var }

/-- The setter `SetStoreEmptyElements(b)` (line 111). -/
def SetStoreEmptyElements (d : SBSGenericDetector) (b : Bool) : SBSGenericDetector :=
  { d with fStoreEmptyElements := b }

/-- The query `WithTDC()` (line 113): `fModeTDC != SBSModeTDC::kNone`. -/
def WithTDC (d : SBSGenericDetector) : Bool := d.fModeTDC != SBSModeTDC.Mode.kNone

/-- The query `WithADC()` (line 114): `fModeADC != SBSModeADC::kNone`. -/
def WithADC (d : SBSGenericDetector) : Bool := d.fModeADC != SBSModeADC.Mode.kNone

/-- The call `vec.resize(n)` of `std::vector`: the first `n` entries are kept and new entries
are value-initialised. -/
def resize {α : Type} [Inhabited α] (vec : List α) (n : Nat) : List α :=
  vec.take n ++ List.replicate (n - vec.length) default

/-- The 1D `ResetVector(vec, val, n)` (`SBSGenericDetector.h`, lines 194-202): when `n > 0` the
vector is cleared and resized to `n`; then the loop over `i < vec.size()` assigns
`vec[i] = val`. -/
def ResetVector {α : Type} [Inhabited α] (vec : List α) (val : α) (n : Nat) : List α :=
  let vec1 := if n > 0 then resize ([] : List α) n else vec
  (List.range vec1.length).foldl (fun v i => v.set i val) vec1

/-- The template `InitVector(vec, val, n)` (`SBSGenericDetector.h`, lines 188-192):
`vec.resize(n)` followed by `ResetVector(vec, val)`, whose size argument defaults to 0. -/
def InitVector {α : Type} [Inhabited α] (vec : List α) (val : α) (n : Nat) : List α :=
  ResetVector (resize vec n) val 0

/-- The 2D `ResetVector(vec, val, nr, nc)` (`SBSGenericDetector.h`, lines 205-215): when
`nr > 0` the vector of rows is cleared and resized to `nr`; then the loop over
`i < vec.size()` calls the 1D `ResetVector(vec[i], val, nc)` on each row. -/
def ResetVector2D {α : Type} [Inhabited α] (vec : List (List α)) (val : α) (nr nc : Nat) :
    List (List α) :=
  let vec1 := if nr > 0 then resize ([] : List (List α)) nr else vec
  (List.range vec1.length).foldl (fun v i => v.set i (ResetVector (v.getD i []) val nc)) vec1

end SBSGenericDetector

/-! ## `Float_t` as IEEE 754 binary32

The definitions above carry the `Float_t` fields as rationals: they are the class in exact
arithmetic.  The definitions of this section carry them as binary32 data, every operation
rounded to nearest, ties to even, which is what the compiled class computes with `float`
operands (no contraction of a product and a sum into one rounding). -/

/-- A binary32 datum.  `fin neg k` is the finite value `(-1)^neg * k * 2^-149`: every finite
binary32 value is an integer multiple of `2^-149`, the least subnormal, and `fin true 0`
is the negative zero. -/
inductive F32 where
  | fin (neg : Bool) (k : Nat)
  | inf (neg : Bool)
  | nan
deriving DecidableEq

namespace F32

/-- Counting binary digits with a bound on the number of steps. -/
def bitsAux : Nat → Nat → Nat
  | 0, _ => 0
  | fuel + 1, n => if n = 0 then 0 else bitsAux fuel (n / 2) + 1

/-- The number of binary digits of `n` (`0` for `n = 0`); `n` halvings always reach `0`. -/
def bitLength (n : Nat) : Nat := bitsAux n n

/-- The binary exponent of the spacing of binary32 values around a magnitude whose integer
part, in units of `2^-149`, is `f`: the significand has 24 binary digits. -/
def shift (f : Nat) : Nat := bitLength f - 24

/-- Rounding of the magnitude `p / q` (in units of `2^-149`, `q > 0`) to the nearest magnitude
with a 24-digit significand, ties to the even significand, the exponent not bounded above. -/
def roundUnits (p q : Nat) : Nat :=
  let Q := 2 ^ shift (p / q)
  let n := p / (q * Q)
  let r := p % (q * Q)
  let up := if 2 * r < q * Q then false else if q * Q < 2 * r then true else n % 2 == 1
  (if up then n + 1 else n) * Q

/-- The binary32 datum nearest to `(-1)^neg * (p / q) * 2^-149`: rounding, then overflow to an
infinity when the rounded magnitude reaches `2^128`, that is `2^277` units. -/
def pack (neg : Bool) (p q : Nat) : F32 :=
  let k := roundUnits p q
  if bitLength k ≤ 277 then fin neg k else inf neg

/-- The binary32 sum `a + b`. -/
def add : F32 → F32 → F32
  | nan, _ => nan
  | _, nan => nan
  | inf a, inf b => if a = b then inf a else nan
  | inf a, fin _ _ => inf a
  | fin _ _, inf b => inf b
  | fin a ka, fin b kb =>
    if a = b then pack a (ka + kb) 1
    else if kb < ka then pack a (ka - kb) 1
    else if ka < kb then pack b (kb - ka) 1
    else fin false 0

/-- The binary32 product `a * b`. -/
def mul : F32 → F32 → F32
  | nan, _ => nan
  | _, nan => nan
  | inf a, inf b => inf (xor a b)
  | inf a, fin b k => if k = 0 then nan else inf (xor a b)
  | fin a k, inf b => if k = 0 then nan else inf (xor a b)
  | fin a ka, fin b kb => pack (xor a b) (ka * kb) (2 ^ 149)

/-- The binary32 quotient `a / b`. -/
def div : F32 → F32 → F32
  | nan, _ => nan
  | _, nan => nan
  | inf _, inf _ => nan
  | inf a, fin b _ => inf (xor a b)
  | fin a _, inf b => fin (xor a b) 0
  | fin a ka, fin b kb =>
    if kb = 0 then (if ka = 0 then nan else inf (xor a b))
    else pack (xor a b) (ka * 2 ^ 149) kb

/-- The conversion of an `Int_t` to `float`. -/
def ofInt (i : Int) : F32 := pack (decide (i < 0)) (i.natAbs * 2 ^ 149) 1

/-- The binary32 datum nearest to the fraction `(-1)^neg * p / q`, as a literal such as `0.1f`
denotes it. -/
def ofRatio (neg : Bool) (p q : Nat) : F32 := pack neg (p * 2 ^ 149) q

/-- The rational value of a finite binary32 datum. -/
def toRatOption : F32 → Option ℚ
  | fin neg k => some ((if neg then -1 else 1) * (k : ℚ) / 2 ^ 149)
  | inf _ => none
  | nan => none

/-- The rational value of a binary32 datum, `0` for an infinity and for a NaN. -/
def toRat (x : F32) : ℚ := (toRatOption x).getD 0

end F32

/-- Modelled from the spec: `SBSShowerBlock.h` is not among the sources.  The block of
`SBSShowerBlock`, its `Float_t` fields as binary32 data. -/
structure SBSShowerBlock32 where
  fX : F32
  fY : F32
  fE : F32
  fStat : Int
deriving DecidableEq

namespace SBSShowerBlock32

/-- Modelled from the spec: getter of the block position x (`block->GetX()`). -/
def GetX (b : SBSShowerBlock32) : F32 := b.fX

/-- Modelled from the spec: getter of the block position y (`block->GetY()`). -/
def GetY (b : SBSShowerBlock32) : F32 := b.fY

/-- Modelled from the spec: getter of the block energy (`block->GetE()`). -/
def GetE (b : SBSShowerBlock32) : F32 := b.fE

/-- Modelled from the spec: `block->SetStat(s)` stores the status flag and touches nothing
else. -/
def SetStat (b : SBSShowerBlock32) (s : Int) : SBSShowerBlock32 := { b with fStat := s }

/-- The same block in exact arithmetic: every field by its rational value. -/
def toExact (b : SBSShowerBlock32) : SBSShowerBlock :=
  { fX := b.fX.toRat, fY := b.fY.toRat, fE := b.fE.toRat, fStat := b.fStat }

end SBSShowerBlock32

/-- The block store with binary32 blocks. -/
abbrev Heap32 := Nat → SBSShowerBlock32

/-- The effect of `block->SetStat(s)` on the binary32 block store. -/
def Heap32.SetStat (h : Heap32) (block : Nat) (s : Int) : Heap32 :=
  fun a => if a = block then (h block).SetStat s else h a

/-- The same block store in exact arithmetic. -/
def Heap32.toExact (h : Heap32) : Heap := fun a => (h a).toExact

/-- The class `SBSBBShowerCluster` (fields of `SBSBBShowerCluster.h`, lines 52-61), its
`Float_t` fields as binary32 data. -/
structure SBSBBShowerCluster32 where
  fX : F32
  fY : F32
  fE : F32
  fMult : Int
  fNMaxBlocks : Int
  fBlocks : List (Option Nat)
deriving DecidableEq

namespace SBSBBShowerCluster32

/-- The constructor `SBSBBShowerCluster(Int_t nmaxblk, SBSShowerBlock* block)`
(`SBSBBShowerCluster.cxx`, lines 16-25). -/
def createSeeded (nmaxblk : Int) (h : Heap32) (block : Nat) : SBSBBShowerCluster32 :=
  { fNMaxBlocks := nmaxblk
    fBlocks := SBSBBShowerCluster.storeAt (SBSBBShowerCluster.newArray nmaxblk) 0 block
    fX := (h block).GetX
    fY := (h block).GetY
    fE := (h block).GetE
    fMult := 1 }

/-- The constructor `SBSBBShowerCluster(Int_t nmaxblk)` (`SBSBBShowerCluster.cxx`, lines
29-37); the assignments `fX = 0` convert the integer `0`. -/
def create (nmaxblk : Int) : SBSBBShowerCluster32 :=
  { fNMaxBlocks := nmaxblk
    fBlocks := SBSBBShowerCluster.newArray nmaxblk
    fX := F32.ofInt 0
    fY := F32.ofInt 0
    fE := F32.ofInt 0
    fMult := 0 }

/-- The method `AddBlock(SBSShowerBlock* block)` (`SBSBBShowerCluster.cxx`, lines 56-73) in
binary32: `fX*fE` is rounded, `fMult-1` is converted to `float`, and each of the two
products, the two sums and the quotient is rounded. -/
def AddBlock (c : SBSBBShowerCluster32) (h : Heap32) (block : Nat) :
    SBSBBShowerCluster32 × Heap32 :=
  if c.fMult < c.fNMaxBlocks then
    let blocks := SBSBBShowerCluster.storeAt c.fBlocks c.fMult block
    let h1 := h.SetStat block 1
    let mult := c.fMult + 1
    let x := F32.div
      (F32.add (F32.mul (F32.mul c.fX c.fE) (F32.ofInt (mult - 1)))
        (F32.mul (h1 block).GetX (h1 block).GetE))
      (F32.add c.fE (h1 block).GetE)
    let y := F32.div
      (F32.add (F32.mul (F32.mul c.fY c.fE) (F32.ofInt (mult - 1)))
        (F32.mul (h1 block).GetY (h1 block).GetE))
      (F32.add c.fE (h1 block).GetE)
    let e := F32.add c.fE (h1 block).GetE
    ({ fX := x, fY := y, fE := e, fMult := mult, fNMaxBlocks := c.fNMaxBlocks, fBlocks := blocks }, h1)
  else (c, h)

/-- A sequence of `AddBlock` calls on one cluster, in order. -/
def addBlocks (s : SBSBBShowerCluster32 × Heap32) (blocks : List Nat) :
    SBSBBShowerCluster32 × Heap32 :=
  blocks.foldl (fun t b => AddBlock t.1 t.2 b) s

end SBSBBShowerCluster32

/-- A binary32 block store for the examples: block 0 is (0.1f, 0.5f, 0.2f), block 1 is
(1, 2, 1), block 2 is (2, 5, 2), block 3 is (1, 2, 16777216), block 6 is (2, 3, 5), every
other block is (1, 2, 1); every status flag is 0. -/
def exampleHeap32 : Heap32 := fun a =>
  if a = 0 then ⟨F32.ofRatio false 1 10, F32.ofRatio false 1 2, F32.ofRatio false 2 10, 0⟩
  else if a = 2 then ⟨F32.ofInt 2, F32.ofInt 5, F32.ofInt 2, 0⟩
  else if a = 3 then ⟨F32.ofInt 1, F32.ofInt 2, F32.ofInt 16777216, 0⟩
  else if a = 6 then ⟨F32.ofInt 2, F32.ofInt 3, F32.ofInt 5, 0⟩
  else ⟨F32.ofInt 1, F32.ofInt 2, F32.ofInt 1, 0⟩

/-- A block store for the examples: block 0 is (2,3,5), block 1 is (4,1,5),
block 2 is (3,2,5); every status flag is 0. -/
def exampleHeap : Heap := fun a =>
  if a = 0 then ⟨2, 3, 5, 0⟩ else if a = 1 then ⟨4, 1, 5, 0⟩ else ⟨3, 2, 5, 0⟩

/-- The one-member cluster (X=2, Y=3, E=5) of capacity 2. -/
def exampleOne : SBSBBShowerCluster :=
  { fX := 2, fY := 3, fE := 5, fMult := 1, fNMaxBlocks := 2, fBlocks := [some 0, none] }

/-- The empty cluster of capacity 2 after block 0 has been added. -/
def exampleAfterOne : SBSBBShowerCluster × Heap :=
  SBSBBShowerCluster.AddBlock (SBSBBShowerCluster.create 2) exampleHeap 0

/-- The empty cluster of capacity 2 after blocks 0 and 1 have been added: it is full. -/
def exampleFull : SBSBBShowerCluster × Heap :=
  SBSBBShowerCluster.addBlocks (SBSBBShowerCluster.create 2, exampleHeap) [0, 1]

/-- A second cluster of capacity 2, built after `exampleAfterOne`, holding block 1. -/
def exampleOther : SBSBBShowerCluster × Heap :=
  SBSBBShowerCluster.AddBlock (SBSBBShowerCluster.create 2) exampleAfterOne.2 1

namespace SBSBBShowerCluster

/-! ## Auxiliary facts -/

/-- An accepted `AddBlock`: the cluster it returns. -/
theorem AddBlock_fst_of_lt (c : SBSBBShowerCluster) (h : Heap) (block : Nat)
    (hk : c.fMult < c.fNMaxBlocks) :
    (AddBlock c h block).1 =
      { fX := (c.fX * c.fE * (c.fMult : ℚ) + (h block).fX * (h block).fE) / (c.fE + (h block).fE)
        fY := (c.fY * c.fE * (c.fMult : ℚ) + (h block).fY * (h block).fE) / (c.fE + (h block).fE)
        fE := c.fE + (h block).fE
        fMult := c.fMult + 1
        fNMaxBlocks := c.fNMaxBlocks
        fBlocks := storeAt c.fBlocks c.fMult block } := by
  simp [AddBlock, hk, Heap.SetStat, SBSShowerBlock.SetStat, SBSShowerBlock.GetX,
    SBSShowerBlock.GetY, SBSShowerBlock.GetE]

/-- An accepted `AddBlock`: the block store it returns. -/
theorem AddBlock_snd_of_lt (c : SBSBBShowerCluster) (h : Heap) (block : Nat)
    (hk : c.fMult < c.fNMaxBlocks) :
    (AddBlock c h block).2 = h.SetStat block 1 := by
  simp [AddBlock, hk]

/-- A rejected `AddBlock` returns its arguments. -/
theorem AddBlock_of_not_lt (c : SBSBBShowerCluster) (h : Heap) (block : Nat)
    (hk : ¬ c.fMult < c.fNMaxBlocks) :
    AddBlock c h block = (c, h) := by
  simp [AddBlock, hk]

/-- The last call of a sequence of `AddBlock` calls. -/
theorem addBlocks_snoc (s : SBSBBShowerCluster × Heap) (blocks : List Nat) (b : Nat) :
    addBlocks s (blocks ++ [b]) = AddBlock (addBlocks s blocks).1 (addBlocks s blocks).2 b := by
  simp [addBlocks, List.foldl_append]

/-- Writing the first free slot of an array whose written slots are `l`. -/
theorem set_length_append_replicate (l : List (Option Nat)) (k : Nat) (y : Option Nat) :
    (l ++ List.replicate (k + 1) none).set l.length y = (l ++ [y]) ++ List.replicate k none := by
  induction l with
  | nil => simp [List.replicate_succ]
  | cons a l ih => simp [ih]

/-- Storing a flag leaves position and energy of every block as they were. -/
theorem SetStat_data (h : Heap) (block : Nat) (s : Int) (a : Nat) :
    (h.SetStat block s a).fX = (h a).fX ∧ (h.SetStat block s a).fY = (h a).fY ∧
    (h.SetStat block s a).fE = (h a).fE := by
  unfold Heap.SetStat
  split
  · next hab => subst hab; simp [SBSShowerBlock.SetStat]
  · simp

/-- The state after a sequence of `AddBlock` calls on the empty cluster of capacity `n`:
capacity, member count, member array, energy, and the data of the block store. -/
theorem addBlocks_create_shape (n : Nat) (h : Heap) (blocks : List Nat) :
    (addBlocks (create n, h) blocks).1.fNMaxBlocks = n ∧
    (addBlocks (create n, h) blocks).1.fMult = ((min blocks.length n : Nat) : Int) ∧
    (addBlocks (create n, h) blocks).1.fBlocks
      = (blocks.take n).map some ++ List.replicate (n - blocks.length) none ∧
    (addBlocks (create n, h) blocks).1.fE = ((blocks.take n).map (fun b => (h b).fE)).sum ∧
    ∀ a, ((addBlocks (create n, h) blocks).2 a).fX = (h a).fX ∧
      ((addBlocks (create n, h) blocks).2 a).fY = (h a).fY ∧
      ((addBlocks (create n, h) blocks).2 a).fE = (h a).fE := by
  induction blocks using List.reverseRecOn with
  | nil => simp [addBlocks, create, newArray]
  | append_singleton ps b ih =>
    obtain ⟨hcap, hmult, harr, hen, hdata⟩ := ih
    rw [addBlocks_snoc]
    by_cases hlt : ps.length < n
    · have hk : (addBlocks (create n, h) ps).1.fMult < (addBlocks (create n, h) ps).1.fNMaxBlocks := by
        rw [hcap, hmult]; omega
      have hmin : min ps.length n = ps.length := by omega
      have htake : ps.take n = ps := List.take_of_length_le (by omega)
      have htake' : (ps ++ [b]).take n = ps ++ [b] :=
        List.take_of_length_le (by simp; omega)
      have hrep : n - ps.length = (n - (ps.length + 1)) + 1 := by omega
      rw [AddBlock_fst_of_lt _ _ _ hk, AddBlock_snd_of_lt _ _ _ hk]
      refine ⟨hcap, ?_, ?_, ?_, ?_⟩
      · simp only [hmult, hmin, List.length_append, List.length_singleton]
        have : min (ps.length + 1) n = ps.length + 1 := by omega
        rw [this]; push_cast; ring
      · simp only [harr, hmult, hmin, htake, htake', storeAt]
        have hlen : (ps.map some ++ List.replicate (n - ps.length) none).length = n := by
          simp; omega
        rw [hlen, if_pos ⟨by omega, by omega⟩, Int.toNat_ofNat, List.length_append,
          List.length_singleton]
        rw [hrep]
        have := set_length_append_replicate (ps.map some) (n - (ps.length + 1)) (some b)
        rw [List.length_map] at this
        rw [this]
        simp
      · simp only [hen, htake, htake', List.map_append, List.sum_append, List.map_cons,
          List.map_nil, List.sum_cons, List.sum_nil, add_zero, (hdata b).2.2]
      · intro a
        obtain ⟨h1, h2, h3⟩ := SetStat_data (addBlocks (create n, h) ps).2 b 1 a
        obtain ⟨g1, g2, g3⟩ := hdata a
        exact ⟨h1.trans g1, h2.trans g2, h3.trans g3⟩
    · have hk : ¬ (addBlocks (create n, h) ps).1.fMult < (addBlocks (create n, h) ps).1.fNMaxBlocks := by
        rw [hcap, hmult]; omega
      have htake' : (ps ++ [b]).take n = ps.take n :=
        List.take_append_of_le_length (by omega)
      rw [AddBlock_of_not_lt _ _ _ hk]
      refine ⟨hcap, ?_, ?_, ?_, hdata⟩
      · rw [hmult]; simp only [List.length_append, List.length_singleton]
        have : min (ps.length + 1) n = min ps.length n := by omega
        rw [this]
      · rw [harr, htake']
        simp only [List.length_append, List.length_singleton]
        have : n - (ps.length + 1) = n - ps.length := by omega
        rw [this]
      · rw [hen, htake']

/-- Reading the member array of a cluster whose written slots are `l`. -/
theorem getD_written (l : List Nat) (m k : Nat) :
    (l.map some ++ List.replicate m none).getD k none = l[k]? := by
  induction l generalizing k with
  | nil =>
    simp only [List.map_nil, List.nil_append, List.getElem?_nil]
    rw [List.getD_eq_getElem?_getD]
    by_cases hk : k < m
    · simp [List.getElem?_replicate, hk]
    · simp [List.getElem?_replicate, hk]
  | cons a l ih =>
    cases k with
    | zero => simp
    | succ k => simpa using ih k

/-- The store `fBlocks[i] = block` keeps the number of slots. -/
theorem storeAt_length (a : List (Option Nat)) (i : Int) (block : Nat) :
    (storeAt a i block).length = a.length := by
  unfold storeAt
  split <;> simp

/-- The store `fBlocks[i] = block` leaves every other slot as it was. -/
theorem storeAt_getD_of_ne (a : List (Option Nat)) (i : Int) (block : Nat) (k : Nat)
    (hk : i.toNat ≠ k) :
    (storeAt a i block).getD k none = a.getD k none := by
  unfold storeAt
  split
  · rw [List.getD_eq_getElem?_getD, List.getD_eq_getElem?_getD, List.getElem?_set_ne hk]
  · rfl

/-- An `AddBlock` call leaves `GetBlock(j)` as it was for every index `j` of a member. -/
theorem GetBlock_AddBlock_of_lt (c : SBSBBShowerCluster) (h : Heap) (block : Nat) (j : Int)
    (hj0 : 0 ≤ j) (hj : j < c.fMult) :
    GetBlock (AddBlock c h block).1 j = GetBlock c j := by
  by_cases hk : c.fMult < c.fNMaxBlocks
  · rw [AddBlock_fst_of_lt _ _ _ hk]
    have hj' : j < c.fMult + 1 := by omega
    have hne : c.fMult.toNat ≠ j.toNat := by omega
    simp only [GetBlock, hj, hj', if_true, loadAt, storeAt_length,
      storeAt_getD_of_ne _ _ _ _ hne]
  · rw [AddBlock_of_not_lt _ _ _ hk]

/-- The bounds `0 ≤ fMult ≤ fNMaxBlocks` are kept by every public operation. -/
theorem step_mult_bounds (s : SBSBBShowerCluster × Heap) (op : Op)
    (hs : 0 ≤ s.1.fMult ∧ s.1.fMult ≤ s.1.fNMaxBlocks) :
    0 ≤ (step s op).1.fMult ∧ (step s op).1.fMult ≤ (step s op).1.fNMaxBlocks := by
  cases op with
  | addBlock block =>
    by_cases hk : s.1.fMult < s.1.fNMaxBlocks
    · simp only [step, AddBlock_fst_of_lt _ _ _ hk]
      omega
    · simp only [step, AddBlock_of_not_lt _ _ _ hk]
      exact hs
  | clearEvent =>
    simp only [step, ClearEvent]
    omega

/-- The bounds `0 ≤ fMult ≤ fNMaxBlocks` are kept by every sequence of public operations. -/
theorem run_mult_bounds (ops : List Op) (s : SBSBBShowerCluster × Heap)
    (hs : 0 ≤ s.1.fMult ∧ s.1.fMult ≤ s.1.fNMaxBlocks) :
    0 ≤ (run s ops).1.fMult ∧ (run s ops).1.fMult ≤ (run s ops).1.fNMaxBlocks := by
  induction ops generalizing s with
  | nil => exact hs
  | cons op ops ih => exact ih (step s op) (step_mult_bounds s op hs)

/-- From `SBSBBShowerCluster(n)` with `n ≥ 0`, and from `SBSBBShowerCluster(n, block)` with
`n ≥ 1`, every sequence of public operations keeps `0 ≤ fMult ≤ fNMaxBlocks`. -/
theorem run_mult_bounds_of_create (n : Int) (h : Heap) (block : Nat) (ops : List Op) :
    (0 ≤ n → 0 ≤ (run (create n, h) ops).1.fMult ∧
      (run (create n, h) ops).1.fMult ≤ (run (create n, h) ops).1.fNMaxBlocks) ∧
    (1 ≤ n → 0 ≤ (run (createSeeded n h block, h) ops).1.fMult ∧
      (run (createSeeded n h block, h) ops).1.fMult
        ≤ (run (createSeeded n h block, h) ops).1.fNMaxBlocks) := by
  constructor
  · intro hn
    exact run_mult_bounds ops _ ⟨le_refl _, hn⟩
  · intro hn
    exact run_mult_bounds ops _ ⟨by simp [createSeeded], hn⟩

/-- Taking one slot more than the index just written. -/
theorem take_succ_set (l : List (Option Nat)) (k : Nat) (y : Option Nat) (hk : k < l.length) :
    (l.set k y).take (k + 1) = l.take k ++ [y] := by
  induction l generalizing k with
  | nil => simp at hk
  | cons a l ih =>
    cases k with
    | zero => simp
    | succ k =>
      have hk' : k < l.length := by simpa using hk
      simp [ih k hk']

/-- The member list after an accepted `AddBlock` on a cluster with a free slot. -/
theorem members_AddBlock (c : SBSBBShowerCluster) (h : Heap) (block : Nat)
    (hk : c.fMult < c.fNMaxBlocks) (h0 : 0 ≤ c.fMult) (hlen : c.fNMaxBlocks = c.fBlocks.length) :
    members (AddBlock c h block).1 = members c ++ [some block] := by
  rw [AddBlock_fst_of_lt _ _ _ hk]
  have hlt : c.fMult.toNat < c.fBlocks.length := by omega
  have hsucc : (c.fMult + 1).toNat = c.fMult.toNat + 1 := by omega
  simp only [members, storeAt, hsucc]
  rw [if_pos ⟨h0, by omega⟩]
  exact take_succ_set _ _ _ hlt

/-- Flags set to `1` stay `1` when another flag is set to `1`. -/
theorem SetStat_one_of_flagged (h : Heap) (block a : Nat) (ha : (h a).GetStat = 1) :
    (h.SetStat block 1 a).GetStat = 1 := by
  unfold Heap.SetStat
  split
  · simp [SBSShowerBlock.SetStat, SBSShowerBlock.GetStat]
  · exact ha

/-- The flag of the block just flagged. -/
theorem SetStat_self (h : Heap) (block : Nat) (s : Int) :
    (h.SetStat block s block).GetStat = s := by
  simp [Heap.SetStat, SBSShowerBlock.SetStat, SBSShowerBlock.GetStat]

/-- An index at or above the member count: `GetBlock` returns the null pointer. -/
theorem GetBlock_of_ge (c : SBSBBShowerCluster) (i : Int) (hi : c.fMult ≤ i) :
    GetBlock c i = Fetched.null := by
  have : ¬ i < c.fMult := by omega
  simp [GetBlock, this]

/-- C1: when the member count `k = fMult` is below the capacity, `AddBlock` yields
`X' = (X*E*k + x*e)/(E+e)`, `Y' = (Y*E*k + y*e)/(E+e)`, `E' = E+e` and member count
`k+1`, with `k` the member count before the call and `(x,y,e)` the block offered. -/
theorem AddBlock_centroid_update (c : SBSBBShowerCluster) (h : Heap) (block : Nat)
    (hk : c.fMult < c.fNMaxBlocks) :
    (AddBlock c h block).1.GetX
        = (c.fX * c.fE * (c.fMult : ℚ) + (h block).GetX * (h block).GetE) / (c.fE + (h block).GetE) ∧
    (AddBlock c h block).1.GetY
        = (c.fY * c.fE * (c.fMult : ℚ) + (h block).GetY * (h block).GetE) / (c.fE + (h block).GetE) ∧
    (AddBlock c h block).1.GetE = c.fE + (h block).GetE ∧
    (AddBlock c h block).1.GetMult = c.fMult + 1 := by
  simp [AddBlock, hk, Heap.SetStat, SBSShowerBlock.SetStat, SBSShowerBlock.GetX,
    SBSShowerBlock.GetY, SBSShowerBlock.GetE, GetX, GetY, GetE, GetMult]

/-- C1, at the one-member cluster (X=2, Y=3, E=5) and the block (x=4, y=1, e=5):
energy 10 and centroid (3,2). -/
theorem AddBlock_centroid_update_witness :
    exampleOne.fMult < exampleOne.fNMaxBlocks ∧
    (AddBlock exampleOne exampleHeap 1).1.GetX = 3 ∧
    (AddBlock exampleOne exampleHeap 1).1.GetY = 2 ∧
    (AddBlock exampleOne exampleHeap 1).1.GetE = 10 ∧
    (AddBlock exampleOne exampleHeap 1).1.GetMult = 2 := by
  have hk : exampleOne.fMult < exampleOne.fNMaxBlocks := by decide
  obtain ⟨hx, hy, he, hm⟩ := AddBlock_centroid_update exampleOne exampleHeap 1 hk
  refine ⟨hk, ?_, ?_, ?_, ?_⟩
  · rw [hx]; norm_num [exampleOne, exampleHeap, SBSShowerBlock.GetX, SBSShowerBlock.GetE]
  · rw [hy]; norm_num [exampleOne, exampleHeap, SBSShowerBlock.GetY, SBSShowerBlock.GetE]
  · rw [he]; norm_num [exampleOne, exampleHeap, SBSShowerBlock.GetE]
  · rw [hm]; norm_num [exampleOne]

/-- C3: on a cluster whose member count equals its capacity, `AddBlock` changes nothing:
the cluster (mult, centroid, energy, member array) and the block store (hence the status
flag of the rejected block) are returned as they were. -/
theorem AddBlock_at_capacity (c : SBSBBShowerCluster) (h : Heap) (block : Nat)
    (hfull : c.fMult = c.fNMaxBlocks) :
    AddBlock c h block = (c, h) ∧
    (AddBlock c h block).1.GetMult = c.GetMult ∧
    (AddBlock c h block).1.GetX = c.GetX ∧
    (AddBlock c h block).1.GetY = c.GetY ∧
    (AddBlock c h block).1.GetE = c.GetE ∧
    (AddBlock c h block).1.fBlocks = c.fBlocks ∧
    ((AddBlock c h block).2 block).GetStat = (h block).GetStat := by
  have key : AddBlock c h block = (c, h) := by
    simp [AddBlock, hfull]
  simp [key]

/-- C3, at the cluster of capacity 2 holding blocks 0 and 1 and the third block 2. -/
theorem AddBlock_at_capacity_witness :
    exampleFull.1.fMult = exampleFull.1.fNMaxBlocks ∧
    exampleFull.1.fMult = 2 ∧
    (AddBlock exampleFull.1 exampleFull.2 2).1.GetMult = 2 ∧
    AddBlock exampleFull.1 exampleFull.2 2 = (exampleFull.1, exampleFull.2) ∧
    ((AddBlock exampleFull.1 exampleFull.2 2).2 2).GetStat = 0 := by
  have hm : exampleFull.1.fMult = 2 := by
    simp [exampleFull, addBlocks, AddBlock, create]
  have hcap : exampleFull.1.fNMaxBlocks = 2 := by
    simp [exampleFull, addBlocks, AddBlock, create]
  have hfull : exampleFull.1.fMult = exampleFull.1.fNMaxBlocks := by rw [hm, hcap]
  have key := AddBlock_at_capacity exampleFull.1 exampleFull.2 2 hfull
  refine ⟨hfull, hm, ?_, key.1, ?_⟩
  · rw [key.2.1]; exact hm
  · rw [key.2.2.2.2.2.2]
    simp [exampleFull, addBlocks, AddBlock, create, Heap.SetStat, exampleHeap,
      SBSShowerBlock.GetStat]

/-- C4, evaluated on the code: blocks (2,3,5), (4,1,5), (3,2,5), all of positive energy,
are accepted in this order by an empty cluster of capacity 3.  The energy-weighted mean
of the three members is (3,2); the centroid held by the cluster is (5, 10/3). -/
theorem centroid_of_three_blocks :
    (addBlocks (create 3, exampleHeap) [0, 1, 2]).1.GetMult = 3 ∧
    (addBlocks (create 3, exampleHeap) [0, 1, 2]).1.GetX = 5 ∧
    (addBlocks (create 3, exampleHeap) [0, 1, 2]).1.GetY = 10 / 3 ∧
    weightedMeanX exampleHeap [0, 1, 2] = 3 ∧
    weightedMeanY exampleHeap [0, 1, 2] = 2 ∧
    (addBlocks (create 3, exampleHeap) [0, 1, 2]).1.GetX ≠ weightedMeanX exampleHeap [0, 1, 2] ∧
    (addBlocks (create 3, exampleHeap) [0, 1, 2]).1.GetY ≠ weightedMeanY exampleHeap [0, 1, 2] := by
  have hm : (addBlocks (create 3, exampleHeap) [0, 1, 2]).1.GetMult = 3 := by
    simp [addBlocks, AddBlock, create, GetMult]
  have hx : (addBlocks (create 3, exampleHeap) [0, 1, 2]).1.GetX = 5 := by
    simp [addBlocks, AddBlock, create, GetX, exampleHeap, Heap.SetStat,
      SBSShowerBlock.SetStat, SBSShowerBlock.GetX, SBSShowerBlock.GetE]
    norm_num
  have hy : (addBlocks (create 3, exampleHeap) [0, 1, 2]).1.GetY = 10 / 3 := by
    simp [addBlocks, AddBlock, create, GetY, exampleHeap, Heap.SetStat,
      SBSShowerBlock.SetStat, SBSShowerBlock.GetY, SBSShowerBlock.GetE]
    norm_num
  have wx : weightedMeanX exampleHeap [0, 1, 2] = 3 := by
    simp [weightedMeanX, exampleHeap, SBSShowerBlock.GetX, SBSShowerBlock.GetE]
    norm_num
  have wy : weightedMeanY exampleHeap [0, 1, 2] = 2 := by
    simp [weightedMeanY, exampleHeap, SBSShowerBlock.GetY, SBSShowerBlock.GetE]
    norm_num
  refine ⟨hm, hx, hy, wx, wy, ?_, ?_⟩
  · rw [hx, wx]; norm_num
  · rw [hy, wy]; norm_num

/-- C5, amended: after `m` `AddBlock` calls on the empty cluster of capacity `n ≥ 0`, the
member count is `min(m,n)` and, in exact arithmetic, the energy is the sum of the energies
of the first `min(m,n)` blocks offered (blocks offered at capacity contribute nothing).
(In binary32 the energy is accumulated with one rounding per accepted block.) -/
theorem addBlocks_mult_energy (n : Nat) (h : Heap) (blocks : List Nat) :
    (addBlocks (create n, h) blocks).1.GetMult = ((min blocks.length n : Nat) : Int) ∧
    (addBlocks (create n, h) blocks).1.GetE
      = ((blocks.take (min blocks.length n)).map (fun b => (h b).GetE)).sum := by
  obtain ⟨_, hmult, _, hen, _⟩ := addBlocks_create_shape n h blocks
  have htake : blocks.take (min blocks.length n) = blocks.take n := by
    by_cases hle : blocks.length ≤ n
    · rw [Nat.min_eq_left hle, List.take_of_length_le hle, List.take_of_length_le (le_refl _)]
    · rw [Nat.min_eq_right (by omega)]
  refine ⟨hmult, ?_⟩
  rw [htake]
  exact hen

/-- C6, evaluated on the code: `SBSBBShowerCluster(0, block)` sets `fMult = 1` whatever the
capacity, so the cluster it builds has member count 1 above its capacity 0. -/
theorem createSeeded_zero_capacity :
    (createSeeded 0 exampleHeap 0).GetMult = 1 ∧
    (createSeeded 0 exampleHeap 0).GetNMaxBlocks = 0 ∧
    ¬ (createSeeded 0 exampleHeap 0).GetMult ≤ (createSeeded 0 exampleHeap 0).GetNMaxBlocks := by
  simp [createSeeded, GetMult, GetNMaxBlocks]

/-- C7, evaluated on the code: `SBSBBShowerCluster(2, block)` puts the seed block into the
member list and leaves its status flag at 0. -/
theorem createSeeded_member_not_flagged :
    members (createSeeded 2 exampleHeap 0) = [some 0] ∧
    (createSeeded 2 exampleHeap 0).GetMult = 1 ∧
    (exampleHeap 0).GetStat = 0 ∧
    ¬ MembersFlagged (createSeeded 2 exampleHeap 0) exampleHeap := by
  have hm : members (createSeeded 2 exampleHeap 0) = [some 0] := by
    simp [members, createSeeded, newArray, storeAt, List.replicate]
  refine ⟨hm, rfl, rfl, ?_⟩
  intro hflag
  have h1 := hflag 0 (by rw [hm]; simp)
  simp [exampleHeap, SBSShowerBlock.GetStat] at h1

/-- C8 as stated fails: block 0 has been accepted by the cluster (its flag is 1), and a
second `AddBlock` of block 0 on the same cluster is accepted again: member count 2, member
list [block 0, block 0], energy 10 for a block of energy 5. -/
theorem AddBlock_twice_same_block :
    (exampleAfterOne.2 0).GetStat = 1 ∧
    members exampleAfterOne.1 = [some 0] ∧
    (AddBlock exampleAfterOne.1 exampleAfterOne.2 0).1.GetMult = 2 ∧
    members (AddBlock exampleAfterOne.1 exampleAfterOne.2 0).1 = [some 0, some 0] ∧
    (exampleHeap 0).GetE = 5 ∧
    (AddBlock exampleAfterOne.1 exampleAfterOne.2 0).1.GetE = 10 := by
  refine ⟨?_, ?_, ?_, ?_, rfl, ?_⟩
  · simp [exampleAfterOne, AddBlock, create, Heap.SetStat, SBSShowerBlock.SetStat,
      SBSShowerBlock.GetStat]
  · simp [exampleAfterOne, AddBlock, create, members, newArray, storeAt, List.replicate]
  · simp [exampleAfterOne, AddBlock, create, GetMult]
  · simp [exampleAfterOne, AddBlock, create, members, newArray, storeAt, List.replicate]
  · simp [exampleAfterOne, AddBlock, create, GetE, exampleHeap, Heap.SetStat,
      SBSShowerBlock.SetStat, SBSShowerBlock.GetE]
    norm_num

/-- C8, amended: `AddBlock` sets the flag and does not read it; the exclusive claim holds when
the caller offers a block whose flag is not 1.  For a cluster `c` with a free slot and any
cluster `d`, all of whose members are flagged: the block offered is in neither member list,
the call appends it to the members of `c`, flags it, and all members of `c` and `d` stay
flagged. -/
theorem AddBlock_exclusive_of_unflagged (c d : SBSBBShowerCluster) (h : Heap) (block : Nat)
    (hk : c.fMult < c.fNMaxBlocks) (h0 : 0 ≤ c.fMult) (hlen : c.fNMaxBlocks = c.fBlocks.length)
    (hc : MembersFlagged c h) (hd : MembersFlagged d h) (hb : (h block).GetStat ≠ 1) :
    some block ∉ members c ∧ some block ∉ members d ∧
    members (AddBlock c h block).1 = members c ++ [some block] ∧
    ((AddBlock c h block).2 block).GetStat = 1 ∧
    MembersFlagged (AddBlock c h block).1 (AddBlock c h block).2 ∧
    MembersFlagged d (AddBlock c h block).2 := by
  have hmem := members_AddBlock c h block hk h0 hlen
  have hheap := AddBlock_snd_of_lt c h block hk
  refine ⟨fun hin => hb (hc block hin), fun hin => hb (hd block hin), hmem, ?_, ?_, ?_⟩
  · rw [hheap]; exact SetStat_self h block 1
  · intro b hbm
    rw [hmem, List.mem_append] at hbm
    rw [hheap]
    rcases hbm with hbm | hbm
    · exact SetStat_one_of_flagged h block b (hc b hbm)
    · have hbb : b = block := by simpa using hbm
      rw [hbb]; exact SetStat_self h block 1
  · intro b hbm
    rw [hheap]
    exact SetStat_one_of_flagged h block b (hd b hbm)

/-- C8 amended, at two clusters of capacity 2 holding block 0 and block 1, and the unflagged
block 2 offered to the first. -/
theorem AddBlock_exclusive_of_unflagged_witness :
    (exampleOther.2 2).GetStat ≠ 1 ∧
    some 2 ∉ members exampleAfterOne.1 ∧ some 2 ∉ members exampleOther.1 ∧
    members (AddBlock exampleAfterOne.1 exampleOther.2 2).1 = [some 0, some 2] ∧
    ((AddBlock exampleAfterOne.1 exampleOther.2 2).2 2).GetStat = 1 ∧
    MembersFlagged (AddBlock exampleAfterOne.1 exampleOther.2 2).1
      (AddBlock exampleAfterOne.1 exampleOther.2 2).2 ∧
    MembersFlagged exampleOther.1 (AddBlock exampleAfterOne.1 exampleOther.2 2).2 := by
  have hm1 : members exampleAfterOne.1 = [some 0] := by
    simp [exampleAfterOne, AddBlock, create, members, newArray, storeAt, List.replicate]
  have hm2 : members exampleOther.1 = [some 1] := by
    simp [exampleOther, AddBlock, create, members, newArray, storeAt, List.replicate]
  have hk : exampleAfterOne.1.fMult < exampleAfterOne.1.fNMaxBlocks := by
    simp [exampleAfterOne, AddBlock, create]
  have h0 : 0 ≤ exampleAfterOne.1.fMult := by
    simp [exampleAfterOne, AddBlock, create]
  have hlen : exampleAfterOne.1.fNMaxBlocks = exampleAfterOne.1.fBlocks.length := by
    simp [exampleAfterOne, AddBlock, create, newArray, storeAt]
  have hc : MembersFlagged exampleAfterOne.1 exampleOther.2 := by
    intro b hbm
    rw [hm1] at hbm
    have hb0 : b = 0 := by simpa using hbm
    subst hb0
    simp [exampleOther, exampleAfterOne, AddBlock, create, Heap.SetStat,
      SBSShowerBlock.SetStat, SBSShowerBlock.GetStat]
  have hd : MembersFlagged exampleOther.1 exampleOther.2 := by
    intro b hbm
    rw [hm2] at hbm
    have hb1 : b = 1 := by simpa using hbm
    subst hb1
    simp [exampleOther, exampleAfterOne, AddBlock, create, Heap.SetStat,
      SBSShowerBlock.SetStat, SBSShowerBlock.GetStat]
  have hb : (exampleOther.2 2).GetStat ≠ 1 := by
    simp [exampleOther, exampleAfterOne, AddBlock, create, Heap.SetStat,
      SBSShowerBlock.SetStat, SBSShowerBlock.GetStat, exampleHeap]
  obtain ⟨r1, r2, r3, r4, r5, r6⟩ :=
    AddBlock_exclusive_of_unflagged exampleAfterOne.1 exampleOther.1 exampleOther.2 2
      hk h0 hlen hc hd hb
  rw [hm1] at r3
  exact ⟨hb, r1, r2, r3, r4, r5, r6⟩

/-- C9, evaluated on the code: the index -1 passes the guard `i < fMult` of `GetBlock`, which
then reads `fBlocks[-1]`, a position outside the member array. -/
theorem GetBlock_negative_index :
    GetBlock exampleOne (-1) = Fetched.outside (-1) ∧
    GetBlock (create 2) (-1) = Fetched.outside (-1) := by
  constructor
  · simp [GetBlock, exampleOne, loadAt]
  · simp [GetBlock, create, loadAt]

/-- C10: after a sequence of `AddBlock` calls on the empty cluster of capacity `n`, for every
index `0 ≤ i < mult`, `GetBlock(i)` is the `(i+1)`-th block accepted (the accepted blocks
being the first `n` offered); and a further `AddBlock` leaves `GetBlock(j)` unchanged for
every `j` below the member count before that call. -/
theorem GetBlock_addBlocks (n : Nat) (h : Heap) (blocks : List Nat) :
    (∀ i : Int, 0 ≤ i → i < (addBlocks (create n, h) blocks).1.GetMult →
      i.toNat < (blocks.take n).length ∧
      GetBlock (addBlocks (create n, h) blocks).1 i
        = Fetched.slot ((blocks.take n)[i.toNat]?)) ∧
    (∀ (b : Nat) (j : Int), 0 ≤ j → j < (addBlocks (create n, h) blocks).1.GetMult →
      GetBlock (AddBlock (addBlocks (create n, h) blocks).1
          (addBlocks (create n, h) blocks).2 b).1 j
        = GetBlock (addBlocks (create n, h) blocks).1 j) := by
  obtain ⟨_, hmult, harr, _, _⟩ := addBlocks_create_shape n h blocks
  constructor
  · intro i hi0 hi
    have hi' : i < (addBlocks (create n, h) blocks).1.fMult := hi
    have hlen : (addBlocks (create n, h) blocks).1.fBlocks.length = n := by
      rw [harr]; simp; omega
    have hbound : i < ((min blocks.length n : Nat) : Int) := by rw [← hmult]; exact hi'
    refine ⟨by rw [List.length_take]; omega, ?_⟩
    have hin : 0 ≤ i ∧ i < ((addBlocks (create n, h) blocks).1.fBlocks.length : Int) := by
      rw [hlen]; omega
    simp only [GetBlock, hi', if_true, loadAt, hin, and_self]
    rw [harr, getD_written]
  · intro b j hj0 hj
    exact GetBlock_AddBlock_of_lt _ _ _ _ hj0 hj

/-- C10, at capacity 2 and the blocks 0, 1, 2 offered in this order: `GetBlock(0)` is block 0,
`GetBlock(1)` is block 1, and adding block 1 has left `GetBlock(0)` as it was. -/
theorem GetBlock_addBlocks_witness :
    (1 : Int) < (addBlocks (create 2, exampleHeap) [0, 1, 2]).1.GetMult ∧
    GetBlock (addBlocks (create 2, exampleHeap) [0, 1, 2]).1 0 = Fetched.slot (some 0) ∧
    GetBlock (addBlocks (create 2, exampleHeap) [0, 1, 2]).1 1 = Fetched.slot (some 1) ∧
    GetBlock (AddBlock (addBlocks (create 2, exampleHeap) [0]).1
        (addBlocks (create 2, exampleHeap) [0]).2 1).1 0
      = GetBlock (addBlocks (create 2, exampleHeap) [0]).1 0 := by
  have hm : (1 : Int) < (addBlocks (create 2, exampleHeap) [0, 1, 2]).1.GetMult := by
    simp [addBlocks, AddBlock, create, GetMult]
  have hm0 : (0 : Int) < (addBlocks (create 2, exampleHeap) [0, 1, 2]).1.GetMult := by
    omega
  have hm1 : (0 : Int) < (addBlocks (create 2, exampleHeap) [0]).1.GetMult := by
    simp [addBlocks, AddBlock, create, GetMult]
  have key := GetBlock_addBlocks 2 exampleHeap [0, 1, 2]
  have key1 := GetBlock_addBlocks 2 exampleHeap [0]
  refine ⟨hm, ?_, ?_, key1.2 1 0 (le_refl _) hm1⟩
  · have := (key.1 0 (le_refl _) hm0).2
    simpa using this
  · have := (key.1 1 (by decide) hm).2
    simpa using this

/-- C11: `ClearEvent` resets mult, centroid and energy to zero, keeps the capacity and empties
the member list (`GetBlock(i)` is the null pointer for every `i ≥ 0`); the cluster it leaves
is the one `SBSBBShowerCluster(capacity)` builds, and `ClearEvent` is idempotent. -/
theorem ClearEvent_resets (c : SBSBBShowerCluster) :
    (ClearEvent c).GetMult = 0 ∧ (ClearEvent c).GetX = 0 ∧ (ClearEvent c).GetY = 0 ∧
    (ClearEvent c).GetE = 0 ∧
    (ClearEvent c).GetNMaxBlocks = c.GetNMaxBlocks ∧
    members (ClearEvent c) = [] ∧
    (∀ i : Int, 0 ≤ i → GetBlock (ClearEvent c) i = Fetched.null) ∧
    ClearEvent c = create c.GetNMaxBlocks ∧
    ClearEvent (ClearEvent c) = ClearEvent c := by
  refine ⟨rfl, rfl, rfl, rfl, rfl, ?_, ?_, rfl, rfl⟩
  · simp [members, ClearEvent]
  · intro i hi
    exact GetBlock_of_ge (ClearEvent c) i hi

/-- C11, at the full cluster of capacity 2 holding blocks 0 and 1. -/
theorem ClearEvent_resets_witness :
    GetBlock exampleFull.1 1 = Fetched.slot (some 1) ∧
    GetBlock (ClearEvent exampleFull.1) 1 = Fetched.null ∧
    ClearEvent exampleFull.1 = create 2 ∧
    (ClearEvent exampleFull.1).GetMult = 0 := by
  have key := ClearEvent_resets exampleFull.1
  have hcap : exampleFull.1.GetNMaxBlocks = 2 := by
    simp [exampleFull, addBlocks, AddBlock, create, GetNMaxBlocks]
  refine ⟨?_, key.2.2.2.2.2.2.1 1 (by decide), ?_, key.1⟩
  · simp [exampleFull, addBlocks, AddBlock, create, GetBlock, loadAt, storeAt, newArray,
      List.replicate]
  · rw [← hcap]; exact key.2.2.2.2.2.2.2.1

/-- The closed-form sum when one more block is appended. -/
theorem factorialSum_append (N : Nat) (t : Nat → ℚ) (i : Nat) (l : List Nat) (b : Nat) :
    factorialSum N t i (l ++ [b])
      = factorialSum N t i l + ((N.factorial : ℚ) / ((i + l.length).factorial : ℚ)) * t b := by
  induction l generalizing i with
  | nil => simp [factorialSum]
  | cons a l ih =>
    have happ : (a :: l) ++ [b] = a :: (l ++ [b]) := rfl
    have hidx : i + 1 + l.length = i + (l.length + 1) := by omega
    rw [happ, factorialSum, factorialSum, ih (i + 1), List.length_cons, hidx]
    ring

/-- The closed-form sum when the factorial in the numerators goes from `N!` to `(N+1)!`. -/
theorem factorialSum_succ (N : Nat) (t : Nat → ℚ) (i : Nat) (l : List Nat) :
    factorialSum (N + 1) t i l = ((N : ℚ) + 1) * factorialSum N t i l := by
  induction l generalizing i with
  | nil => simp [factorialSum]
  | cons a l ih =>
    simp only [factorialSum, ih, Nat.factorial_succ]
    push_cast
    ring

/-- The closed-form sum of `k` blocks with numerators `k!` is `k` times the one with
numerators `(k-1)!`. -/
theorem factorialSum_length (t : Nat → ℚ) (l : List Nat) :
    factorialSum l.length t 0 l = (l.length : ℚ) * factorialSum (l.length - 1) t 0 l := by
  cases hl : l.length with
  | zero =>
    have : l = [] := List.length_eq_zero.mp hl
    subst this
    simp [factorialSum]
  | succ m =>
    rw [factorialSum_succ]
    simp

/-- The products `X*E` and `Y*E` held by the cluster after a sequence of accepted `AddBlock`
calls with non-zero partial energy sums. -/
theorem addBlocks_moments (n : Nat) (h : Heap) (blocks : List Nat) (hcap : blocks.length ≤ n)
    (hsum : ∀ j, 1 ≤ j → j ≤ blocks.length →
      ((blocks.take j).map (fun b => (h b).fE)).sum ≠ 0) :
    (addBlocks (create n, h) blocks).1.fX * (addBlocks (create n, h) blocks).1.fE
      = factorialSum (blocks.length - 1) (fun b => (h b).fX * (h b).fE) 0 blocks ∧
    (addBlocks (create n, h) blocks).1.fY * (addBlocks (create n, h) blocks).1.fE
      = factorialSum (blocks.length - 1) (fun b => (h b).fY * (h b).fE) 0 blocks := by
  induction blocks using List.reverseRecOn with
  | nil => simp [addBlocks, create, factorialSum]
  | append_singleton ps b ih =>
    have hlen : (ps ++ [b]).length = ps.length + 1 := by simp
    have hcap' : ps.length ≤ n := by omega
    have hsum' : ∀ j, 1 ≤ j → j ≤ ps.length →
        ((ps.take j).map (fun b => (h b).fE)).sum ≠ 0 := by
      intro j hj1 hj2
      have := hsum j hj1 (by omega)
      rwa [List.take_append_of_le_length hj2] at this
    obtain ⟨ihx, ihy⟩ := ih hcap' hsum'
    obtain ⟨hc, hm, _, hen, hdata⟩ := addBlocks_create_shape n h ps
    have hmin : min ps.length n = ps.length := by omega
    have hk : (addBlocks (create n, h) ps).1.fMult < (addBlocks (create n, h) ps).1.fNMaxBlocks := by
      rw [hc, hm]; omega
    have hmq : ((addBlocks (create n, h) ps).1.fMult : ℚ) = (ps.length : ℚ) := by
      rw [hm, hmin]; simp
    have htake : ps.take n = ps := List.take_of_length_le hcap'
    obtain ⟨dx, dy, de⟩ := hdata b
    have hE : (addBlocks (create n, h) ps).1.fE + ((addBlocks (create n, h) ps).2 b).fE ≠ 0 := by
      have := hsum (ps.length + 1) (by omega) (by omega)
      rw [List.take_of_length_le (by omega)] at this
      rw [hen, htake, de]
      simpa using this
    rw [addBlocks_snoc, AddBlock_fst_of_lt _ _ _ hk]
    simp only [hlen, Nat.add_sub_cancel]
    rw [div_mul_cancel₀ _ hE, div_mul_cancel₀ _ hE, factorialSum_append, factorialSum_append,
      factorialSum_length, factorialSum_length, ← ihx, ← ihy, hmq, dx, dy, de]
    have hf : ((ps.length.factorial : ℚ)) ≠ 0 := by
      exact_mod_cast Nat.factorial_ne_zero ps.length
    simp only [Nat.zero_add, div_self hf]
    constructor <;> ring

/-- C13: after `blocks.length` blocks, not more than the capacity `n` and with non-zero
partial energy sums, have been added in order to an empty cluster, `E` is the sum of the
energies and `X*E`, `Y*E` are the sums `sum_i ((n-1)!/(i-1)!) * x_i * e_i` and
`sum_i ((n-1)!/(i-1)!) * y_i * e_i` over the blocks. -/
theorem addBlocks_closed_form (n : Nat) (h : Heap) (blocks : List Nat)
    (hpos : 1 ≤ blocks.length) (hcap : blocks.length ≤ n)
    (hsum : ∀ j, 1 ≤ j → j ≤ blocks.length →
      ((blocks.take j).map (fun b => (h b).GetE)).sum ≠ 0) :
    (addBlocks (create n, h) blocks).1.GetE = (blocks.map (fun b => (h b).GetE)).sum ∧
    (addBlocks (create n, h) blocks).1.GetX * (addBlocks (create n, h) blocks).1.GetE
      = closedFormX h blocks ∧
    (addBlocks (create n, h) blocks).1.GetY * (addBlocks (create n, h) blocks).1.GetE
      = closedFormY h blocks := by
  have _ := hpos
  obtain ⟨_, _, _, hen, _⟩ := addBlocks_create_shape n h blocks
  obtain ⟨hx, hy⟩ := addBlocks_moments n h blocks hcap hsum
  rw [List.take_of_length_le hcap] at hen
  exact ⟨hen, hx, hy⟩

/-- C13, at capacity 3 and the blocks (2,3,5), (4,1,5), (3,2,5): `E = 15`,
`X*E = 2*10 + 2*20 + 15 = 75` and `Y*E = 2*15 + 2*5 + 10 = 50`. -/
theorem addBlocks_closed_form_witness :
    (addBlocks (create 3, exampleHeap) [0, 1, 2]).1.GetE = 15 ∧
    (addBlocks (create 3, exampleHeap) [0, 1, 2]).1.GetX
      * (addBlocks (create 3, exampleHeap) [0, 1, 2]).1.GetE = 75 ∧
    (addBlocks (create 3, exampleHeap) [0, 1, 2]).1.GetY
      * (addBlocks (create 3, exampleHeap) [0, 1, 2]).1.GetE = 50 ∧
    closedFormX exampleHeap [0, 1, 2] = 75 ∧ closedFormY exampleHeap [0, 1, 2] = 50 := by
  have hsum : ∀ j, 1 ≤ j → j ≤ [0, 1, 2].length →
      ((([0, 1, 2] : List Nat).take j).map (fun b => (exampleHeap b).GetE)).sum ≠ 0 := by
    intro j hj1 hj2
    have hj3 : j ≤ 3 := hj2
    interval_cases j <;> norm_num [exampleHeap, SBSShowerBlock.GetE]
  obtain ⟨he, hx, hy⟩ :=
    addBlocks_closed_form 3 exampleHeap [0, 1, 2] (by decide) (by decide) hsum
  have cx : closedFormX exampleHeap [0, 1, 2] = 75 := by
    simp [closedFormX, factorialSum, exampleHeap, SBSShowerBlock.GetX, SBSShowerBlock.GetE,
      Nat.factorial]
    norm_num
  have cy : closedFormY exampleHeap [0, 1, 2] = 50 := by
    simp [closedFormY, factorialSum, exampleHeap, SBSShowerBlock.GetY, SBSShowerBlock.GetE,
      Nat.factorial]
    norm_num
  have hE : (([0, 1, 2] : List Nat).map (fun b => (exampleHeap b).GetE)).sum = 15 := by
    simp [exampleHeap, SBSShowerBlock.GetE]
    norm_num
  rw [hE] at he
  rw [cx] at hx
  rw [cy] at hy
  exact ⟨he, hx, hy, cx, cy⟩

/-- C14, amended: in exact arithmetic, for two blocks with `e1 ≠ 0` and `e1 + e2 ≠ 0` added in
order to an empty cluster of capacity at least 2, the centroid after the second `AddBlock`
is the energy-weighted mean `((x1*e1 + x2*e2)/(e1+e2), (y1*e1 + y2*e2)/(e1+e2))`.
(In binary32 the products, the sums and the quotient are each rounded.) -/
theorem addBlocks_two_blocks_mean (n : Int) (h : Heap) (b1 b2 : Nat) (hn : 2 ≤ n)
    (he1 : (h b1).GetE ≠ 0) (he12 : (h b1).GetE + (h b2).GetE ≠ 0) :
    (addBlocks (create n, h) [b1, b2]).1.GetX
      = ((h b1).GetX * (h b1).GetE + (h b2).GetX * (h b2).GetE) / ((h b1).GetE + (h b2).GetE) ∧
    (addBlocks (create n, h) [b1, b2]).1.GetY
      = ((h b1).GetY * (h b1).GetE + (h b2).GetY * (h b2).GetE) / ((h b1).GetE + (h b2).GetE) ∧
    (addBlocks (create n, h) [b1, b2]).1.GetX = weightedMeanX h [b1, b2] ∧
    (addBlocks (create n, h) [b1, b2]).1.GetY = weightedMeanY h [b1, b2] := by
  have _ := he12
  have he1' : (h b1).fE ≠ 0 := he1
  have hk0 : (create n).fMult < (create n).fNMaxBlocks := by
    simp only [create]; omega
  have hstep : addBlocks (create n, h) [b1, b2]
      = AddBlock (AddBlock (create n) h b1).1 (AddBlock (create n) h b1).2 b2 := rfl
  have hk1 : (AddBlock (create n) h b1).1.fMult < (AddBlock (create n) h b1).1.fNMaxBlocks := by
    rw [AddBlock_fst_of_lt _ _ _ hk0]
    simp only [create]; omega
  obtain ⟨dx, dy, de⟩ := SetStat_data h b1 1 b2
  have hx : (addBlocks (create n, h) [b1, b2]).1.fX
      = ((h b1).fX * (h b1).fE + (h b2).fX * (h b2).fE) / ((h b1).fE + (h b2).fE) := by
    rw [hstep, AddBlock_fst_of_lt _ _ _ hk1, AddBlock_snd_of_lt _ _ _ hk0,
      AddBlock_fst_of_lt _ _ _ hk0]
    simp only [create, dx, de]
    simp [he1']
  have hy : (addBlocks (create n, h) [b1, b2]).1.fY
      = ((h b1).fY * (h b1).fE + (h b2).fY * (h b2).fE) / ((h b1).fE + (h b2).fE) := by
    rw [hstep, AddBlock_fst_of_lt _ _ _ hk1, AddBlock_snd_of_lt _ _ _ hk0,
      AddBlock_fst_of_lt _ _ _ hk0]
    simp only [create, dy, de]
    simp [he1']
  refine ⟨hx, hy, ?_, ?_⟩
  · rw [show (addBlocks (create n, h) [b1, b2]).1.GetX
        = (addBlocks (create n, h) [b1, b2]).1.fX from rfl, hx]
    simp [weightedMeanX, SBSShowerBlock.GetX, SBSShowerBlock.GetE]
  · rw [show (addBlocks (create n, h) [b1, b2]).1.GetY
        = (addBlocks (create n, h) [b1, b2]).1.fY from rfl, hy]
    simp [weightedMeanY, SBSShowerBlock.GetY, SBSShowerBlock.GetE]

/-- C14 amended, at capacity 2 and the blocks (2,3,5) and (4,1,5): centroid (3,2). -/
theorem addBlocks_two_blocks_mean_witness :
    (addBlocks (create 2, exampleHeap) [0, 1]).1.GetX = 3 ∧
    (addBlocks (create 2, exampleHeap) [0, 1]).1.GetY = 2 ∧
    weightedMeanX exampleHeap [0, 1] = 3 ∧ weightedMeanY exampleHeap [0, 1] = 2 := by
  have he1 : (exampleHeap 0).GetE ≠ 0 := by
    norm_num [exampleHeap, SBSShowerBlock.GetE]
  have he12 : (exampleHeap 0).GetE + (exampleHeap 1).GetE ≠ 0 := by
    norm_num [exampleHeap, SBSShowerBlock.GetE]
  obtain ⟨hx, hy, wx, wy⟩ :=
    addBlocks_two_blocks_mean 2 exampleHeap 0 1 (le_refl _) he1 he12
  have vx : ((exampleHeap 0).GetX * (exampleHeap 0).GetE
      + (exampleHeap 1).GetX * (exampleHeap 1).GetE)
      / ((exampleHeap 0).GetE + (exampleHeap 1).GetE) = 3 := by
    norm_num [exampleHeap, SBSShowerBlock.GetX, SBSShowerBlock.GetE]
  have vy : ((exampleHeap 0).GetY * (exampleHeap 0).GetE
      + (exampleHeap 1).GetY * (exampleHeap 1).GetE)
      / ((exampleHeap 0).GetE + (exampleHeap 1).GetE) = 2 := by
    norm_num [exampleHeap, SBSShowerBlock.GetY, SBSShowerBlock.GetE]
  rw [vx] at hx
  rw [vy] at hy
  exact ⟨hx, hy, wx.symm.trans hx, wy.symm.trans hy⟩

end SBSBBShowerCluster

namespace SBSGenericOutputData

/-- C12: whatever the buffer holds, `clear()` leaves all sixteen sequences empty; the cleared
buffer satisfies the buffer invariant, with `len(samps) = sum(nsamps) = 0`, and `clear()` is
idempotent. -/
theorem clear_empties (d : SBSGenericOutputData) :
    (clear d).row = [] ∧ (clear d).col = [] ∧ (clear d).ped = [] ∧ (clear d).layer = [] ∧
    (clear d).a = [] ∧ (clear d).a_p = [] ∧ (clear d).a_c = [] ∧ (clear d).a_amp = [] ∧
    (clear d).a_amp_p = [] ∧ (clear d).a_time = [] ∧ (clear d).t = [] ∧ (clear d).t_te = [] ∧
    (clear d).t_ToT = [] ∧ (clear d).nsamps = [] ∧ (clear d).sidx = [] ∧ (clear d).samps = [] ∧
    BufferInvariant (clear d) ∧
    ((clear d).samps.length : Int) = 0 ∧ (clear d).nsamps.sum = 0 ∧
    clear (clear d) = clear d := by
  refine ⟨rfl, rfl, rfl, rfl, rfl, rfl, rfl, rfl, rfl, rfl, rfl, rfl, rfl, rfl, rfl, rfl,
    ?_, rfl, rfl, rfl⟩
  refine ⟨rfl, rfl, rfl, rfl, rfl, rfl, rfl, rfl, rfl, rfl, rfl, rfl, rfl, rfl, rfl, ?_⟩
  intro k hk
  simp [clear] at hk

end SBSGenericOutputData

namespace SBSGenericDetector

/-- C16: after `SetModeTDC(m)`, `WithTDC()` is true exactly when `m` is not `kNone`, so for
`kIgnore`, `kTDC` and `kTDCSimple`; `WithADC()` is true exactly when the ADC mode is not
`kNone`; `SetModeTDC` changes only the field `fModeTDC`. -/
theorem SetModeTDC_WithTDC (d : SBSGenericDetector) (m : SBSModeTDC.Mode) :
    ((d.SetModeTDC m).WithTDC = true ↔ m ≠ SBSModeTDC.Mode.kNone) ∧
    (d.SetModeTDC SBSModeTDC.Mode.kNone).WithTDC = false ∧
    (d.SetModeTDC SBSModeTDC.Mode.kIgnore).WithTDC = true ∧
    (d.SetModeTDC SBSModeTDC.Mode.kTDC).WithTDC = true ∧
    (d.SetModeTDC SBSModeTDC.Mode.kTDCSimple).WithTDC = true ∧
    (d.WithADC = true ↔ d.fModeADC ≠ SBSModeADC.Mode.kNone) ∧
    ((d.SetModeTDC m).WithADC = true ↔ d.fModeADC ≠ SBSModeADC.Mode.kNone) ∧
    (d.SetModeTDC m).fModeADC = d.fModeADC ∧
    (d.SetModeTDC m).fDisableRefADC = d.fDisableRefADC ∧
    (d.SetModeTDC m).fDisableRefTDC = d.fDisableRefTDC ∧
    (d.SetModeTDC m).fStoreRawHits = d.fStoreRawHits ∧
    (d.SetModeTDC m).fStoreEmptyElements = d.fStoreEmptyElements ∧
    d.SetModeTDC m = { d with fModeTDC := m } := by
  refine ⟨?_, rfl, rfl, rfl, rfl, ?_, ?_, rfl, rfl, rfl, rfl, rfl, rfl⟩
  · cases m <;> simp [SetModeTDC, WithTDC]
  · simp [WithADC]
  · simp [SetModeTDC, WithADC]

end SBSGenericDetector

namespace SBSGenericDetector

/-- The loop `for i < k: vec[i] = g(vec[i])`: the length is kept, the entries below `k` have
been rewritten and the others are as they were. -/
theorem loop_getElem {α : Type} (g : α → α) (d : α) (l : List α) (k : Nat) :
    ((List.range k).foldl (fun v i => v.set i (g (v.getD i d))) l).length = l.length ∧
    ∀ j, ((List.range k).foldl (fun v i => v.set i (g (v.getD i d))) l)[j]?
      = if j < k then (l[j]?).map g else l[j]? := by
  induction k with
  | zero => simp
  | succ k ih =>
    obtain ⟨hlen, hget⟩ := ih
    rw [List.range_succ, List.foldl_append]
    simp only [List.foldl_cons, List.foldl_nil, List.length_set]
    refine ⟨hlen, ?_⟩
    intro j
    rw [List.getElem?_set, hlen, List.getD_eq_getElem?_getD, hget k]
    simp only [lt_irrefl, if_false]
    by_cases hjk : k = j
    · subst hjk
      by_cases hk : k < l.length
      · simp [hk, List.getElem?_eq_getElem hk]
      · have hnone : l[k]? = none := List.getElem?_eq_none (by omega)
        simp [hk, hnone]
    · rw [if_neg hjk, hget j]
      by_cases hj : j < k
      · have : j < k + 1 := by omega
        simp [hj, this]
      · have : ¬ j < k + 1 := by omega
        simp [hj, this]

/-- The loop `for i < vec.size(): vec[i] = g(vec[i])` rewrites every entry. -/
theorem loop_eq_map {α : Type} (g : α → α) (d : α) (l : List α) :
    (List.range l.length).foldl (fun v i => v.set i (g (v.getD i d))) l = l.map g := by
  apply List.ext_getElem?
  intro j
  rw [(loop_getElem g d l l.length).2 j, List.getElem?_map]
  by_cases hj : j < l.length
  · simp [hj]
  · have hnone : l[j]? = none := List.getElem?_eq_none (by omega)
    simp [hj, hnone]

/-- The size after `vec.resize(n)`. -/
theorem resize_length {α : Type} [Inhabited α] (vec : List α) (n : Nat) :
    (resize vec n).length = n := by
  simp only [resize, List.length_append, List.length_take, List.length_replicate]
  omega

/-- The 1D `ResetVector` in closed form. -/
theorem ResetVector_eq {α : Type} [Inhabited α] (vec : List α) (val : α) (n : Nat) :
    ResetVector vec val n
      = if n > 0 then List.replicate n val else List.replicate vec.length val := by
  have hloop : ∀ l : List α,
      (List.range l.length).foldl (fun v i => v.set i val) l = List.replicate l.length val := by
    intro l
    have := loop_eq_map (fun _ => val) val l
    rw [List.map_const'] at this
    exact this
  unfold ResetVector
  by_cases hn : n > 0
  · simp only [hn, if_true]
    rw [hloop, resize_length]
  · simp only [hn, if_false]
    rw [hloop]

/-- The 2D `ResetVector` in closed form. -/
theorem ResetVector2D_eq {α : Type} [Inhabited α] (vec : List (List α)) (val : α)
    (nr nc : Nat) :
    ResetVector2D vec val nr nc
      = (if nr > 0 then List.replicate nr ([] : List α) else vec).map
          (fun row => ResetVector row val nc) := by
  unfold ResetVector2D
  by_cases hn : nr > 0
  · simp only [hn, if_true]
    have hre : resize ([] : List (List α)) nr = List.replicate nr ([] : List α) := by
      simp only [resize, List.take_nil, List.nil_append, List.length_nil, Nat.sub_zero]
      rfl
    rw [hre]
    exact loop_eq_map (fun row => ResetVector row val nc) [] (List.replicate nr [])
  · simp only [hn, if_false]
    exact loop_eq_map (fun row => ResetVector row val nc) [] vec

/-- C17: `InitVector(vec, val, n)` leaves exactly `n` entries equal to `val`;
`ResetVector(vec, val, n)` with `n > 0` does the same and with `n = 0` keeps the length and
sets every entry to `val`; the 2D `ResetVector(vec, val, nr, nc)` with `nr > 0`, `nc > 0`
yields `nr` rows of `nc` entries equal to `val`, and with `nr = 0`, `nc = 0` keeps the length
of every row and sets every entry to `val`. -/
theorem InitVector_ResetVector_spec {α : Type} [Inhabited α] (vec : List α)
    (vec2 : List (List α)) (val : α) (n nr nc : Nat) :
    InitVector vec val n = List.replicate n val ∧
    (0 < n → ResetVector vec val n = List.replicate n val) ∧
    ResetVector vec val 0 = List.replicate vec.length val ∧
    (0 < nr → 0 < nc →
      ResetVector2D vec2 val nr nc = List.replicate nr (List.replicate nc val)) ∧
    ResetVector2D vec2 val 0 0 = vec2.map (fun row => List.replicate row.length val) := by
  refine ⟨?_, ?_, ?_, ?_, ?_⟩
  · unfold InitVector
    rw [ResetVector_eq, resize_length]
    simp
  · intro hn
    rw [ResetVector_eq, if_pos hn]
  · rw [ResetVector_eq]
    simp
  · intro hnr hnc
    rw [ResetVector2D_eq, if_pos hnr, List.map_replicate, ResetVector_eq, if_pos hnc]
  · rw [ResetVector2D_eq]
    simp only [gt_iff_lt, lt_irrefl, if_false]
    apply List.map_congr_left
    intro row _
    rw [ResetVector_eq]
    simp

/-- C17, at the vector [7, 8, 9] and the ragged rows [[1], [2, 3]] with value 5. -/
theorem InitVector_ResetVector_spec_witness :
    InitVector ([7, 8, 9] : List Int) 5 2 = [5, 5] ∧
    ResetVector ([7, 8, 9] : List Int) 5 4 = [5, 5, 5, 5] ∧
    ResetVector ([7, 8, 9] : List Int) 5 0 = [5, 5, 5] ∧
    ResetVector2D ([[1], [2, 3]] : List (List Int)) 5 3 2 = [[5, 5], [5, 5], [5, 5]] ∧
    ResetVector2D ([[1], [2, 3]] : List (List Int)) 5 0 0 = [[5], [5, 5]] := by
  obtain ⟨h1, _, h3, _, h5⟩ :=
    InitVector_ResetVector_spec ([7, 8, 9] : List Int) [[1], [2, 3]] 5 2 0 0
  obtain ⟨_, h2, _, h4, _⟩ :=
    InitVector_ResetVector_spec ([7, 8, 9] : List Int) [[1], [2, 3]] 5 4 3 2
  exact ⟨h1, h2 (by decide), h3, h4 (by decide) (by decide), h5⟩

end SBSGenericDetector

/-! ## The class in binary32 -/

namespace F32

/-- Counting binary digits: every bound on the number of steps that is at least `n` gives the
number of binary digits of `n`. -/
theorem bitsAux_eq (fuel n : Nat) (h : n ≤ fuel) :
    bitsAux fuel n = if n = 0 then 0 else Nat.log2 n + 1 := by
  induction fuel generalizing n with
  | zero =>
    have : n = 0 := by omega
    simp [bitsAux, this]
  | succ fuel ih =>
    by_cases hn : n = 0
    · simp [bitsAux, hn]
    · have hhalf : n / 2 ≤ fuel := by omega
      rw [bitsAux, if_neg hn, if_neg hn, ih (n / 2) hhalf]
      by_cases h2 : 2 ≤ n
      · have hne : n / 2 ≠ 0 := by omega
        rw [if_neg hne]
        conv_rhs => rw [Nat.log2]
        simp [h2]
      · have h1 : n = 1 := by omega
        subst h1
        simp [Nat.log2]

/-- The number of binary digits of `n > 0` is `log2 n + 1`. -/
theorem bitLength_eq (n : Nat) : bitLength n = if n = 0 then 0 else Nat.log2 n + 1 :=
  bitsAux_eq n n (le_refl n)

/-- A magnitude that has a 24-digit significand and is below `2^128` is not changed by
rounding. -/
theorem pack_exact (neg : Bool) (k : Nat) (hk : k % 2 ^ shift k = 0) (hb : bitLength k ≤ 277) :
    pack neg k 1 = fin neg k := by
  have hQ : 0 < 2 ^ shift k := Nat.two_pow_pos _
  have hr : roundUnits k 1 = k := by
    simp only [roundUnits, Nat.div_one, Nat.one_mul, hk, Nat.mul_zero, hQ, if_true]
    exact Nat.div_mul_cancel (Nat.dvd_of_mod_eq_zero hk)
  simp only [pack, hr, hb, if_true]

set_option maxRecDepth 100000 in
/-- The literals `0.1f` and `0.2f` are `13421773 * 2^-27` and `13421773 * 2^-26`. -/
theorem ofRatio_tenth :
    ofRatio false 1 10 = fin false (13421773 * 2 ^ 122) ∧
    ofRatio false 2 10 = fin false (13421773 * 2 ^ 123) := by
  decide

set_option maxRecDepth 100000 in
/-- Rounding to nearest, ties to even: `16777216 + 1` is `16777216`, `16777218 + 1` is
`16777220`, and `16777216 + 3` is `16777220`. -/
theorem add_ties_to_even :
    add (ofInt 16777216) (ofInt 1) = ofInt 16777216 ∧
    add (ofInt 16777218) (ofInt 1) = ofInt 16777220 ∧
    add (ofInt 16777216) (ofInt 3) = ofInt 16777220 := by
  decide

/-- Overflow and underflow: the product of `1e20f` by itself is the positive infinity, and so
is its quotient by `1e20f`; half the least subnormal rounds to zero and three halves of it
to twice it. -/
theorem overflow_underflow :
    mul (ofRatio false 100000000000000000000 1) (ofRatio false 100000000000000000000 1)
      = inf false ∧
    div (inf false) (ofRatio false 100000000000000000000 1) = inf false ∧
    ofRatio false 1 (2 ^ 150) = fin false 0 ∧
    ofRatio false 3 (2 ^ 150) = fin false 2 := by
  decide!

end F32

namespace SBSBBShowerCluster32

set_option maxRecDepth 100000 in
/-- At the block (2, 3, 5), whose products are binary32 values, the binary32 class agrees with
exact arithmetic: `AddBlock` on the empty cluster gives centroid (2, 3), energy 5 and mult 1,
which is also the cluster of the seeded constructor. -/
theorem AddBlock32_empty_dyadic :
    (AddBlock (create 2) exampleHeap32 6).1.fX = F32.ofInt 2 ∧
    (AddBlock (create 2) exampleHeap32 6).1.fY = F32.ofInt 3 ∧
    (AddBlock (create 2) exampleHeap32 6).1.fE = F32.ofInt 5 ∧
    (AddBlock (create 2) exampleHeap32 6).1.fMult = 1 ∧
    createSeeded 2 exampleHeap32 6 = (AddBlock (create 2) exampleHeap32 6).1 := by
  decide

set_option maxRecDepth 100000 in
/-- C5 as stated fails on the binary32 class: the blocks of energies 16777216, 1, 1 are all
accepted by the empty cluster of capacity 3 (mult 3), the sum 16777218 of their energies is
a binary32 value, and the energy held by the cluster is 16777216. -/
theorem addBlocks_energy_absorbed :
    (exampleHeap32 3).GetE = F32.fin false (16777216 * 2 ^ 149) ∧
    (exampleHeap32 4).GetE = F32.fin false (1 * 2 ^ 149) ∧
    (exampleHeap32 5).GetE = F32.fin false (1 * 2 ^ 149) ∧
    (addBlocks (create 3, exampleHeap32) [3, 4, 5]).1.fMult = 3 ∧
    (addBlocks (create 3, exampleHeap32) [3, 4, 5]).1.fE = F32.fin false (16777216 * 2 ^ 149) ∧
    F32.ofInt 16777218 = F32.fin false (16777218 * 2 ^ 149) ∧
    (addBlocks (create 3, exampleHeap32) [3, 4, 5]).1.fE ≠ F32.ofInt 16777218 ∧
    F32.toRat (addBlocks (create 3, exampleHeap32) [3, 4, 5]).1.fE = 16777216 ∧
    ((([3, 4, 5] : List Nat).take (min 3 3)).map
      (fun b => (exampleHeap32.toExact b).GetE)).sum = 16777218 ∧
    F32.toRat (addBlocks (create 3, exampleHeap32) [3, 4, 5]).1.fE
      ≠ ((([3, 4, 5] : List Nat).take (min 3 3)).map
          (fun b => (exampleHeap32.toExact b).GetE)).sum := by
  have e3 : (exampleHeap32 3).GetE = F32.fin false (16777216 * 2 ^ 149) := by decide
  have e4 : (exampleHeap32 4).GetE = F32.fin false (1 * 2 ^ 149) := by decide
  have e5 : (exampleHeap32 5).GetE = F32.fin false (1 * 2 ^ 149) := by decide
  have hm : (addBlocks (create 3, exampleHeap32) [3, 4, 5]).1.fMult = 3 := by decide
  have he : (addBlocks (create 3, exampleHeap32) [3, 4, 5]).1.fE
      = F32.fin false (16777216 * 2 ^ 149) := by decide
  have hs : F32.ofInt 16777218 = F32.fin false (16777218 * 2 ^ 149) := by decide
  have hne : (addBlocks (create 3, exampleHeap32) [3, 4, 5]).1.fE ≠ F32.ofInt 16777218 := by
    decide
  have hv : F32.toRat (addBlocks (create 3, exampleHeap32) [3, 4, 5]).1.fE = 16777216 := by
    rw [he]
    norm_num [F32.toRat, F32.toRatOption]
  have q3 : (exampleHeap32.toExact 3).GetE = 16777216 := by
    have : (exampleHeap32 3).fE = F32.fin false (16777216 * 2 ^ 149) := e3
    norm_num [Heap32.toExact, SBSShowerBlock32.toExact, SBSShowerBlock.GetE, this, F32.toRat,
      F32.toRatOption]
  have q4 : (exampleHeap32.toExact 4).GetE = 1 := by
    have : (exampleHeap32 4).fE = F32.fin false (1 * 2 ^ 149) := e4
    norm_num [Heap32.toExact, SBSShowerBlock32.toExact, SBSShowerBlock.GetE, this, F32.toRat,
      F32.toRatOption]
  have q5 : (exampleHeap32.toExact 5).GetE = 1 := by
    have : (exampleHeap32 5).fE = F32.fin false (1 * 2 ^ 149) := e5
    norm_num [Heap32.toExact, SBSShowerBlock32.toExact, SBSShowerBlock.GetE, this, F32.toRat,
      F32.toRatOption]
  have hsum : ((([3, 4, 5] : List Nat).take (min 3 3)).map
      (fun b => (exampleHeap32.toExact b).GetE)).sum = 16777218 := by
    simp only [Nat.min_self, List.take, List.map_cons, List.map_nil, List.sum_cons,
      List.sum_nil, q3, q4, q5]
    norm_num
  refine ⟨e3, e4, e5, hm, he, hs, hne, hv, hsum, ?_⟩
  rw [hv, hsum]
  norm_num

set_option maxRecDepth 100000 in
/-- C14 as stated fails on the binary32 class: for the blocks (1, 2, 1) and (2, 5, 2) added to
the empty cluster of capacity 2, the centroid x held by the cluster is
`13981013 * 2^-23`, and the energy-weighted mean of the two members is `5/3`. -/
theorem addBlocks_two_blocks_rounded :
    (addBlocks (create 2, exampleHeap32) [1, 2]).1.fMult = 2 ∧
    (addBlocks (create 2, exampleHeap32) [1, 2]).1.fX = F32.fin false (13981013 * 2 ^ 126) ∧
    F32.toRat (addBlocks (create 2, exampleHeap32) [1, 2]).1.fX = 13981013 / 8388608 ∧
    (exampleHeap32.toExact 1).GetE ≠ 0 ∧
    (exampleHeap32.toExact 1).GetE + (exampleHeap32.toExact 2).GetE ≠ 0 ∧
    weightedMeanX exampleHeap32.toExact [1, 2] = 5 / 3 ∧
    F32.toRat (addBlocks (create 2, exampleHeap32) [1, 2]).1.fX
      ≠ weightedMeanX exampleHeap32.toExact [1, 2] := by
  have hm : (addBlocks (create 2, exampleHeap32) [1, 2]).1.fMult = 2 := by decide
  have hx : (addBlocks (create 2, exampleHeap32) [1, 2]).1.fX
      = F32.fin false (13981013 * 2 ^ 126) := by decide
  have b1 : exampleHeap32 1
      = ⟨F32.fin false (2 ^ 149), F32.fin false (2 ^ 150), F32.fin false (2 ^ 149), 0⟩ := by
    decide
  have b2 : exampleHeap32 2
      = ⟨F32.fin false (2 ^ 150), F32.fin false (5 * 2 ^ 149), F32.fin false (2 ^ 150), 0⟩ := by
    decide
  have hv : F32.toRat (addBlocks (create 2, exampleHeap32) [1, 2]).1.fX
      = 13981013 / 8388608 := by
    rw [hx]
    norm_num [F32.toRat, F32.toRatOption]
  have he1 : (exampleHeap32.toExact 1).GetE = 1 := by
    norm_num [Heap32.toExact, SBSShowerBlock32.toExact, SBSShowerBlock.GetE, b1, F32.toRat,
      F32.toRatOption]
  have he2 : (exampleHeap32.toExact 2).GetE = 2 := by
    norm_num [Heap32.toExact, SBSShowerBlock32.toExact, SBSShowerBlock.GetE, b2, F32.toRat,
      F32.toRatOption]
  have hx1 : (exampleHeap32.toExact 1).GetX = 1 := by
    norm_num [Heap32.toExact, SBSShowerBlock32.toExact, SBSShowerBlock.GetX, b1, F32.toRat,
      F32.toRatOption]
  have hx2 : (exampleHeap32.toExact 2).GetX = 2 := by
    norm_num [Heap32.toExact, SBSShowerBlock32.toExact, SBSShowerBlock.GetX, b2, F32.toRat,
      F32.toRatOption]
  have hw : weightedMeanX exampleHeap32.toExact [1, 2] = 5 / 3 := by
    simp only [weightedMeanX, List.map_cons, List.map_nil, List.sum_cons, List.sum_nil,
      he1, he2, hx1, hx2]
    norm_num
  refine ⟨hm, hx, hv, ?_, ?_, hw, ?_⟩
  · rw [he1]; norm_num
  · rw [he1, he2]; norm_num
  · rw [hv, hw]; norm_num

end SBSBBShowerCluster32
